import Mathlib

/-!
Verification of the DL-in-repeat-seq repository: a shallow embedding of
the label-generation pipeline (generate_label.py), the dataset/dataloader
component (dataloader.py) and the causal-mask construction (seq2seq.py),
together with theorems settling the specification claims about them.

Python values that matter to the claims are embedded as follows: csv rows
are lists of strings, dynamic scalars (which may be str or int) are a
`PyScalar`, dicts are association lists with Python insert/lookup
semantics, files are their string contents, and fallible code returns
`Except String`.
-/

/-- A dynamically typed Python scalar: the repository passes both strings
and integers into the same record fields, and `"100" == 100` is false in
Python, so the embedding keeps the tag. -/
inductive PyScalar where
  | str (v : String)
  | int (v : Int)
  deriving DecidableEq, Repr

/-- str() of a Python scalar. -/
def PyScalar.toStr : PyScalar → String
  | .str v => v
  | .int v => toString v

/-- generate_label.py lines 23-27: `class Annotation_info(typing.NamedTuple)`
with fields chromosome, subtype, start, end.  The class annotates start and
end as int, but NamedTuple performs no conversion, so the embedded fields
are `PyScalar`, holding whatever value the constructor call passes. -/
structure Annotation_info where
  chromosome : PyScalar
  subtype : PyScalar
  start : PyScalar
  «end» : PyScalar
  deriving DecidableEq, Repr

/-- Python repr of a string containing no quote or backslash characters
(all classification strings in this repository): surrounded by single
quotes (written \x27 here). -/
def pyStrRepr (s : String) : String := "\x27" ++ s ++ "\x27"

/-- Python `str((c,))` for a one-element tuple holding the string `c`, as computed
at generate_label.py line 112/116: parenthesised repr with a trailing
comma. -/
def tuple1Str (c : String) : String := "(" ++ pyStrRepr c ++ ",)"

/-- Python `s.startswith(pre)`. -/
def pyStartsWith (s pre : String) : Bool :=
  pre.toList.isPrefixOf s.toList

/-- Python `data[i]` on a list: IndexError when out of range. -/
def pyIndex (data : List String) (i : Nat) : Except String String :=
  match data[i]? with
  | some v => .ok v
  | none => .error ("IndexError: list index out of range")

/-- Python `d[k]` on a dict (modelled as an association list whose earlier
entries shadow none, keys being unique in the files this repository reads):
KeyError when the key is absent. -/
def pyDictKey (d : List (String × String)) (k : String) : Except String String :=
  match d.find? (fun p => p.1 == k) with
  | some p => .ok p.2
  | none => .error ("KeyError: " ++ k)

/-- generate_label.py lines 95-121, `extract_lines`: reads the
tab-separated hits rows; for each row takes field 1 as accession, skips the
row unless field 2 starts with "LTR", otherwise looks the accession up in
`families` (here: accession ↦ classification), wraps the classification in
a one-element tuple, stringifies it, and appends an `Annotation_info` built
from fields 0, 9 and 10.  All four stored fields are the raw strings. -/
def extract_lines (rows : List (List String)) (families : List (String × String)) :
    Except String (List Annotation_info) :=
  match rows with
  | [] => .ok []
  | data :: rest => do
    let accession ← pyIndex data 1
    let ty ← pyIndex data 2
    if pyStartsWith ty ("LTR") = false then
      extract_lines rest families
    else do
      let classification ← pyDictKey families accession
      let chrom ← pyIndex data 0
      let s ← pyIndex data 9
      let e ← pyIndex data 10
      let wanted ← extract_lines rest families
      .ok ({ chromosome := .str chrom
             subtype := .str (tuple1Str classification)
             start := .str s
             «end» := .str e } :: wanted)

/-- Whether csv.writer (QUOTE_MINIMAL) must quote a field written with a
tab delimiter: the field contains the delimiter, the quote character or a
line break. -/
def csvNeedsQuote (s : String) : Bool :=
  s.toList.any (fun c => c == '\t' || c == '"' || c == '\n' || c == '\r')

/-- csv.writer quoting: surround with double quotes, doubling any double
quote inside the field. -/
def csvQuote (s : String) : String :=
  "\"" ++ String.join (s.toList.map (fun c =>
    if c == '"' then "\"\"" else String.singleton c)) ++ "\""

/-- One field as written by csv.writer with delimiter "\t". -/
def csvField (s : String) : String :=
  if csvNeedsQuote s then csvQuote s else s

/-- One row as written by csv.writer with delimiter "\t" and lineterminator
"\n". -/
def csvRow (fields : List String) : String :=
  String.intercalate ("\t") (fields.map csvField) ++ "\n"

/-- generate_label.py lines 124-145, `save_annotations`: opens
`{folder}/{species}_{chromosome}.csv` in mode "a+" (append, create if
absent) and writes one tab-separated row (chromosome, start, end, subtype)
per record.  The file is modelled by its content: `prior` is the content
before the call (empty when the file did not exist) and the result is the
content after it. -/
def save_annotations (prior : String) (annotations : List Annotation_info) : String :=
  prior ++ String.join (annotations.map (fun data =>
    csvRow [data.chromosome.toStr, data.start.toStr, data.«end».toStr, data.subtype.toStr]))

/-- One family object from the paginated family-listing endpoint; only the
fields the code touches are kept. -/
structure FamilyRecord where
  accession : String
  classification : String
  deriving DecidableEq, Repr

/-- One page of the family-listing endpoint: a `results` array and the
service-reported `total_count`. -/
structure PageResponse where
  results : List FamilyRecord
  total_count : Nat
  deriving DecidableEq, Repr

/-- generate_label.py lines 52-55, the inner loop of `download_families`:
for each family of a results batch, assert its accession is not yet a key
of the accumulated dict, then insert it. -/
def processPage (families : List (String × FamilyRecord)) :
    List FamilyRecord → Except String (List (String × FamilyRecord))
  | [] => .ok families
  | family :: rest =>
    if families.any (fun p => p.1 == family.accession) then
      .error ("duplicate accession ID " ++ family.accession)
    else
      processPage (families ++ [(family.accession, family)]) rest

/-- generate_label.py lines 37-60, the pagination loop of
`download_families`: starting from offset 1 with `end` = infinity (`none`),
while start < end consume the next page (a missing response is a fatal
network error), then advance start by the limit 1000 and set `end` to the
page's total_count. -/
def downloadFamiliesLoop (pages : List PageResponse) (start : Nat) (stop : Option Nat)
    (families : List (String × FamilyRecord)) :
    Except String (List (String × FamilyRecord)) :=
  if stop.all (fun e => start < e) then
    match pages with
    | [] => .error ("ConnectionError")
    | page :: rest =>
      match processPage families page.results with
      | .error e => .error e
      | .ok families2 =>
        downloadFamiliesLoop rest (start + 1000) (some page.total_count) families2
  else
    .ok families

/-- generate_label.py lines 30-65, `download_families` without the final
file write: the accumulated accession ↦ family mapping, or the first error
raised. -/
def download_families (pages : List PageResponse) :
    Except String (List (String × FamilyRecord)) :=
  downloadFamiliesLoop pages 1 none []

/-- json.dump of the families mapping, as a single JSON object. -/
def jsonDumpFamilies (families : List (String × FamilyRecord)) : String :=
  "\x7b" ++ String.intercalate (", ") (families.map (fun p =>
    "\"" ++ p.1 ++ "\": \x7b\"accession\": \"" ++ p.2.accession ++
      "\", \"classification\": \"" ++ p.2.classification ++ "\"\x7d")) ++ "\x7d"

/-- The content of the families output file after `download_families`,
given its content before the call: the `open(.., "w")`/`json.dump` at lines
64-65 runs only after the pagination loop has completed without error. -/
def familiesFileAfter (prior : String) (pages : List PageResponse) : String :=
  match download_families pages with
  | .ok families => jsonDumpFamilies families
  | .error _ => prior

/-- The accessions of the result entries the pagination loop consumes,
following the same start/total_count schedule as `downloadFamiliesLoop`
but without the duplicate check. -/
def consumedAccessions (pages : List PageResponse) (start : Nat) (stop : Option Nat) :
    List String :=
  if stop.all (fun e => start < e) then
    match pages with
    | [] => []
    | page :: rest =>
      page.results.map (fun f => f.accession) ++
        consumedAccessions rest (start + 1000) (some page.total_count)
  else
    []

/-- One row of a per-chromosome annotation table as loaded by
dataloader.py lines 180-182: `pd.read_csv(..., sep="\t", names=["start",
"end", "subtype"])`. -/
structure AnnotationRow where
  start : Int
  «end» : Int
  subtype : String
  deriving DecidableEq, Repr

/-- The boolean mask of dataloader.py lines 196-220: the row is kept when
it is fully contained in `[start, end)`, or overlaps the right edge, or
overlaps the left edge — each branch also requiring `row.start <
row.end`. -/
def overlapKeep (start end_ : Int) (row : AnnotationRow) : Bool :=
  (row.start ≥ start && row.«end» ≤ end_ && row.start < row.«end») ||
  (row.start < end_ && end_ < row.«end» && row.start < row.«end») ||
  (row.start < start && start < row.«end» && row.start < row.«end»)

/-- dataloader.py lines 195-221, `RepeatSequenceDataset.
get_the_corresponding_repeat`: the sub-table of annotation rows selected
by the three overlap disjuncts. -/
def get_the_corresponding_repeat (anno_df : List AnnotationRow) (start end_ : Int) :
    List AnnotationRow :=
  anno_df.filter (overlapKeep start end_)

/-- dataloader.py lines 232-240: one row of the crop `apply`, replacing
start by `max(start, x["start"])` and end by `min(end, x["end"])`, subtype
unchanged. -/
def cropRow (start end_ : Int) (x : AnnotationRow) : AnnotationRow :=
  { start := max start x.start, «end» := min end_ x.«end», subtype := x.subtype }

/-- The crop `apply` over the whole selected sub-table. -/
def cropRepeats (start end_ : Int) (rows : List AnnotationRow) : List AnnotationRow :=
  rows.map (cropRow start end_)

/-- Python `genome[start:end]` on a chromosome sequence: Python slicing, clamped
at the end of the sequence. -/
def pySlice (genome : List Char) (start len : Nat) : List Char :=
  (genome.drop start).take len

/-- One stored element of the segment list: the uppercased slice, the
segment's absolute start and the cropped repeat sub-table. -/
structure Segment where
  sequence : List Char
  start : Int
  repeats : List AnnotationRow
  deriving DecidableEq, Repr

/-- dataloader.py lines 223-244, `get_segments_with_repeats`: for window
index in `range(len(genome) // (segment_length - overlap))`, the window is
`[index * stride, index * stride + segment_length)`; a window whose
selected repeat sub-table is empty is skipped, any other window is stored
with its uppercased sequence slice and its cropped repeats. -/
def get_segments_with_repeats (genome : List Char) (annotations : List AnnotationRow)
    (segment_length overlap : Nat) : List Segment :=
  (List.range (genome.length / (segment_length - overlap))).filterMap (fun index =>
    let genome_index := index * (segment_length - overlap)
    let start : Int := genome_index
    let end_ : Int := genome_index + segment_length
    let repeats_in_sequence := get_the_corresponding_repeat annotations start end_
    if repeats_in_sequence.isEmpty then
      none
    else
      some { sequence := (pySlice genome genome_index segment_length).map Char.toUpper
             start := start
             repeats := cropRepeats start end_ repeats_in_sequence })

/-- The candidate windows as the specification words them: `floor(L /
stride)` windows, window `i` spanning `[i * stride, i * stride +
segment_length)`.  Stated from the spec, to be compared with
`get_segments_with_repeats`. -/
def specCandidateWindows (length segment_length overlap : Nat) : List (Int × Int) :=
  (List.range (length / (segment_length - overlap))).map (fun i =>
    let genome_index := i * (segment_length - overlap)
    ((genome_index : Int), (genome_index : Int) + (segment_length : Int)))

/-- A Python dict insert `d[k] = v`: overwrite in place when the key is
present, append otherwise. -/
def pyDictInsert {κ ν : Type} [BEq κ] (d : List (κ × ν)) (k : κ) (v : ν) :
    List (κ × ν) :=
  if d.any (fun p => p.1 == k) then
    d.map (fun p => if p.1 == k then (p.1, v) else p)
  else
    d ++ [(k, v)]

/-- A Python dict built by inserting the given key/value pairs in order
(the semantics of a dict comprehension). -/
def pyDictOfPairs {κ ν : Type} [BEq κ] (pairs : List (κ × ν)) : List (κ × ν) :=
  pairs.foldl (fun d p => pyDictInsert d p.1 p.2) []

/-- A Python dict read `d.get(k)`-style: the value stored at the key. -/
def pyDictGet {κ ν : Type} [BEq κ] (d : List (κ × ν)) (k : κ) : Option ν :=
  (d.find? (fun p => p.1 == k)).map (fun p => p.2)

/-- dataloader.py lines 62-97, `CategoryMapper.__init__`: the sorted label
list, its length, and the two dict comprehensions over
`enumerate(categories)` (note: over the constructor argument, not over the
sorted copy). -/
structure CategoryMapper where
  categories : List String
  num_categories : Nat
  label_to_index_dict : List (String × Nat)
  index_to_label_dict : List (Nat × String)
  deriving Repr

/-- The `CategoryMapper(categories)` constructor. -/
def CategoryMapper.build (categories : List String) : CategoryMapper :=
  { categories := categories.mergeSort (fun a b => decide (a ≤ b))
    num_categories := (categories.mergeSort (fun a b => decide (a ≤ b))).length
    label_to_index_dict :=
      pyDictOfPairs (categories.enum.map (fun p => (p.2, p.1)))
    index_to_label_dict := pyDictOfPairs categories.enum }

/-- Method `label_to_index`: dict lookup of the label (KeyError modelled as
`none`). -/
def CategoryMapper.label_to_index (m : CategoryMapper) (label : String) : Option Nat :=
  pyDictGet m.label_to_index_dict label

/-- Method `index_to_label`: dict lookup of the index (KeyError modelled as
`none`). -/
def CategoryMapper.index_to_label (m : CategoryMapper) (index : Nat) : Option String :=
  pyDictGet m.index_to_label_dict index

/-- One repeat of a segment as it reaches `seq2seq` under the hypothesis
of claim C2: segment-relative integer start and end, and the mapped class
index. -/
structure RelativeRepeat where
  start : Nat
  «end» : Nat
  classIndex : Nat
  deriving DecidableEq, Repr

/-- Tensor slice assignment `target[start:end] = v`: every position of
`[start, end)` (clamped to the tensor length) is overwritten with `v`. -/
def writeRange (target : List Nat) (start end_ v : Nat) : List Nat :=
  target.mapIdx (fun i x => if start ≤ i ∧ i < end_ then v else x)

/-- dataloader.py lines 268-302, `seq2seq`, from the point where the
encoded sample and the per-repeat relative coordinates and class indices
are in hand: clone the sample, overwrite `[start, end)` with `class +
num_nucleobase_letters` for each repeat in row order, then surround with
the sos token `num_categories + num_nucleobase_letters` and the eos token
one greater. -/
def seq2seqTarget (num_nucleobase_letters num_categories : Nat)
    (sample : List Nat) (repeats : List RelativeRepeat) : List Nat :=
  let target := repeats.foldl (fun t r =>
    writeRange t r.start r.«end» (r.classIndex + num_nucleobase_letters)) sample
  let sos := num_categories + num_nucleobase_letters
  let eos := sos + 1
  [sos] ++ target ++ [eos]

/-- The last repeat of the list covering position `i` — the "last one
wins" reading of the claim, to be compared with the overwrite fold. -/
def lastCovering (repeats : List RelativeRepeat) (i : Nat) : Option RelativeRepeat :=
  repeats.foldl (fun acc r => if r.start ≤ i ∧ i < r.«end» then some r else acc) none

/-- dataloader.py lines 340-352, the index split of `build_dataloader`:
`indices = list(range(dataset_size))` shuffled in place by the seeded
generator, then sliced as `indices[:validation_size]`,
`indices[validation_size : validation_size + test_size]` and
`indices[validation_size + test_size : dataset_size]`.  The seeded
`np.random.shuffle` is abstracted as a function of the seed and the list;
the theorems assume only that it permutes its input. -/
def buildSplit (shuffle : Nat → List Nat → List Nat) (seed dataset_size : Nat)
    (validation_size test_size : Nat) : List Nat × List Nat × List Nat :=
  let indices := shuffle seed (List.range dataset_size)
  (indices.take validation_size,
   (indices.drop validation_size).take test_size,
   (indices.drop (validation_size + test_size)).take
     (dataset_size - (validation_size + test_size)))

/-- The names in scope at module level of dataloader.py when
`RepeatSequenceDataset.__init__` runs: the imported names (lines 7-31) and
the module's own top-level definitions. -/
def dataloaderModuleNames : List String :=
  ["pathlib", "pickle", "List", "Type", "Union", "np", "pd", "torch", "F",
   "Fasta", "SubsetRandomSampler", "transforms", "tqdm", "emojis",
   "CoordinatesToTensor", "DnaSequenceMapper", "SampleMapEncode",
   "data_directory", "genome_assemblies_directory",
   "TranslateCoordinatesReverse", "DeNormalizeCoordinates", "CategoryMapper",
   "RepeatSequenceDataset", "build_dataloader", "NormalizeCoordinates",
   "TranslateCoordinates"]

/-- The local names bound inside `RepeatSequenceDataset.__init__`: its
parameters (lines 126-135). -/
def initLocalNames : List String :=
  ["self", "genome_fasta_path", "annotation_path", "chromosomes",
   "dna_sequence_mapper", "segment_length", "overlap", "transform"]

/-- Python name resolution inside `__init__`: locals, then module globals
and builtins relevant here; an unbound name raises NameError. -/
def resolveInInit (name : String) : Except String Unit :=
  if initLocalNames.contains name || dataloaderModuleNames.contains name then
    .ok ()
  else
    .error ("NameError: name \x27" ++ name ++ "\x27 is not defined")

/-- The constructor arguments of `RepeatSequenceDataset` that the failure
path can depend on. -/
structure InitArgs where
  genome_fasta_path : String
  annotation_path : String
  chromosomes : List String
  deriving Repr

/-- dataloader.py lines 126-155, `RepeatSequenceDataset.__init__`, up to
its first failure.  Lines 140-142 build `self.path` from the
`genome_fasta_path` parameter; lines 143-146 build `self.annotation` from
the name `annotations_path`, which is looked up once per chromosome inside
the list comprehension — the parameter is named `annotation_path` and no
global of that name exists, so each lookup raises NameError.  When the
chromosome list is empty the comprehension body never runs; `select_chr`
then iterates over an empty zip and `get_unique_categories` calls
`pd.concat` on an empty list of dataframes, which raises ValueError.
`initAnnotationList` below is the comprehension of lines 143-146, whose
body resolves the name `annotations_path` once per chromosome. -/
def initAnnotationList : List String → Except String (List String)
  | [] => .ok []
  | chromosome :: rest =>
    match resolveInInit ("annotations_path") with
    | .error e => .error e
    | .ok _ =>
      match initAnnotationList rest with
      | .error e => .error e
      | .ok tail => .ok (("/hg38_" ++ chromosome ++ ".csv") :: tail)

def repeatSequenceDataset_init (args : InitArgs) :
    Except String (List String × List String) :=
  let path := args.chromosomes.map (fun chromosome =>
    args.genome_fasta_path ++ "/" ++ chromosome ++ ".fa")
  match initAnnotationList args.chromosomes with
  | .error e => .error e
  | .ok annotation =>
    if args.chromosomes.isEmpty then
      .error ("ValueError: No objects to concatenate")
    else
      .ok (path, annotation)

/-- The configuration fields `build_dataloader` reads before the dataset
constructor call. -/
structure Configuration where
  chromosomes : List String
  segment_length : Nat
  overlap : Nat
  deriving Repr

/-- dataloader.py lines 317-334, `build_dataloader` up to the
`RepeatSequenceDataset(...)` call, with the repository's hard-coded paths;
everything after the constructor call runs only if construction
succeeds. -/
def build_dataloader (configuration : Configuration) : Except String Unit := do
  let _ ← repeatSequenceDataset_init
    { genome_fasta_path := "./data/genome_assemblies/datasets"
      annotation_path := "./data/annotations"
      chromosomes := configuration.chromosomes }
  .ok ()

/-- A tensor float as far as the mask construction distinguishes values:
an exact numeric value or negative infinity (the only values
`generate_square_subsequent_mask` ever writes). -/
inductive TorchFloat where
  | num (v : Int)
  | negInf
  deriving DecidableEq, Repr

/-- The tensor `torch.ones((sz, sz))` over the integer-valued embedding. -/
def torchOnes (sz : Nat) : List (List Nat) :=
  List.replicate sz (List.replicate sz 1)

/-- The operation `torch.triu`: keep the diagonal and above, zero strictly below it. -/
def torchTriu (m : List (List Nat)) : List (List Nat) :=
  m.mapIdx (fun i row => row.mapIdx (fun j x => if j < i then 0 else x))

/-- Elementwise `(tensor == 1)`. -/
def matEqOne (m : List (List Nat)) : List (List Bool) :=
  m.map (fun row => row.map (fun x => x == 1))

/-- The operation `.transpose(0, 1)` of a `sz × sz` boolean matrix. -/
def matTransposeSq (sz : Nat) (m : List (List Bool)) : List (List Bool) :=
  List.ofFn (fun i : Fin sz => List.ofFn (fun j : Fin sz =>
    (m.getD j.val []).getD i.val false))

/-- Elementwise `.masked_fill(cond, v)`. -/
def maskedFill (m : List (List TorchFloat)) (cond : List (List Bool))
    (v : TorchFloat) : List (List TorchFloat) :=
  List.zipWith (fun row crow => List.zipWith (fun x c => if c then v else x) row crow)
    m cond

/-- seq2seq.py lines 111-120, `generate_square_subsequent_mask`:
`mask = (torch.triu(torch.ones((sz, sz))) == 1).transpose(0, 1)`, then
`mask.float().masked_fill(mask == 0, float("-inf")).masked_fill(mask == 1,
float(0.0))` — both fill conditions refer to the boolean `mask` before
reassignment. -/
def generate_square_subsequent_mask (sz : Nat) : List (List TorchFloat) :=
  let mask : List (List Bool) := matTransposeSq sz (matEqOne (torchTriu (torchOnes sz)))
  let maskFloat : List (List TorchFloat) :=
    mask.map (fun row => row.map (fun b => TorchFloat.num (if b then 1 else 0)))
  maskedFill
    (maskedFill maskFloat (mask.map (fun row => row.map (fun b => b == false)))
      TorchFloat.negInf)
    (mask.map (fun row => row.map (fun b => b == true)))
    (TorchFloat.num 0)

/-- The annotation table of the concrete overlap/crop example of claim C1:
repeats `[50,150)`, `[500,600)`, `[2050,2200)`, `[3000,3100)`. -/
def exampleAnnotations : List AnnotationRow :=
  [{ start := 50, «end» := 150, subtype := "L1" },
   { start := 500, «end» := 600, subtype := "L2" },
   { start := 2050, «end» := 2200, subtype := "L3" },
   { start := 3000, «end» := 3100, subtype := "L4" }]

/-- The four scalar fields of a record in the order `save_annotations`
writes them (generate_label.py line 142): chromosome, start, end,
subtype. -/
def annotationFields (d : Annotation_info) : List String :=
  [d.chromosome.toStr, d.start.toStr, d.«end».toStr, d.subtype.toStr]

/-- A one-page response sequence holding the same accession twice, the
concrete failing run used for the family-catalog uniqueness claim. -/
def duplicatePages : List PageResponse :=
  [{ results := [{ accession := "DF000000001", classification := "LTR/Gypsy" },
                 { accession := "DF000000001", classification := "LTR/Copia" }]
     total_count := 2 }]

/- ------------------------------------------------------------------ -/
/- Theorems                                                           -/
/- ------------------------------------------------------------------ -/

theorem csvField_of_clean (s : String) (h : csvNeedsQuote s = false) :
    csvField s = s := by
  simp [csvField, h]

theorem csvRow_of_clean (fields : List String)
    (h : ∀ f ∈ fields, csvNeedsQuote f = false) :
    csvRow fields = String.intercalate ("\t") fields ++ "\n" := by
  unfold csvRow
  congr 1
  congr 1
  calc fields.map csvField = fields.map id := by
        exact List.map_congr_left (fun f hf => csvField_of_clean f (h f hf))
    _ = fields := List.map_id fields

/-- C1: for rows with rep_start < rep_end, `get_the_corresponding_repeat`
keeps a row of the table iff it is fully contained in the segment, or
overlaps the right edge, or overlaps the left edge; the subsequent crop
stores max(start, rep_start) and min(end, rep_end) with the subtype
unchanged, one stored row per kept row in order. -/
theorem overlap_crop_spec (anno_df : List AnnotationRow) (start end_ : Int) :
    (∀ row : AnnotationRow, row.start < row.«end» →
      (row ∈ get_the_corresponding_repeat anno_df start end_ ↔
        row ∈ anno_df ∧
          ((row.start ≥ start ∧ row.«end» ≤ end_) ∨
           (row.start < end_ ∧ end_ < row.«end») ∨
           (row.start < start ∧ start < row.«end»)))) ∧
    List.Forall₂ (fun orig stored =>
        stored.start = max start orig.start ∧
        stored.«end» = min end_ orig.«end» ∧
        stored.subtype = orig.subtype)
      (get_the_corresponding_repeat anno_df start end_)
      (cropRepeats start end_ (get_the_corresponding_repeat anno_df start end_)) := by
  constructor
  · intro row h
    rw [get_the_corresponding_repeat, List.mem_filter]
    simp only [overlapKeep, Bool.or_eq_true, Bool.and_eq_true, decide_eq_true_eq]
    constructor
    · rintro ⟨hmem, hkeep⟩
      exact ⟨hmem, by tauto⟩
    · rintro ⟨hmem, hkeep⟩
      exact ⟨hmem, by tauto⟩
  · rw [cropRepeats, List.forall₂_map_right_iff, List.forall₂_same]
    intro x _
    exact ⟨rfl, rfl, rfl⟩

/-- Witness for C1, the concrete example of the claim: segment
`[100, 2100)` keeps the repeats `[50,150)`, `[500,600)`, `[2050,2200)`
(and the membership of the first follows from the proved overlap
criterion), crops them to `[100,150)`, `[500,600)`, `[2050,2100)`, and
drops `[3000,3100)`. -/
theorem overlap_crop_spec_witness :
    ({ start := 50, «end» := 150, subtype := "L1" } : AnnotationRow) ∈
        get_the_corresponding_repeat exampleAnnotations 100 2100 ∧
    get_the_corresponding_repeat exampleAnnotations 100 2100 =
      [{ start := 50, «end» := 150, subtype := "L1" },
       { start := 500, «end» := 600, subtype := "L2" },
       { start := 2050, «end» := 2200, subtype := "L3" }] ∧
    cropRepeats 100 2100 (get_the_corresponding_repeat exampleAnnotations 100 2100) =
      [{ start := 100, «end» := 150, subtype := "L1" },
       { start := 500, «end» := 600, subtype := "L2" },
       { start := 2050, «end» := 2100, subtype := "L3" }] := by
  refine ⟨?_, by decide, by decide⟩
  exact ((overlap_crop_spec exampleAnnotations 100 2100).1
    { start := 50, «end» := 150, subtype := "L1" } (by decide)).mpr
    ⟨by decide, by decide⟩

/-- C5: every candidate window list has exactly
`floor(length / (segment_length - overlap))` entries; every stored segment
of `get_segments_with_repeats` has a nonempty repeat table and arises from
one of the candidate windows, cropped to it; at most one segment is stored
per candidate window. -/
theorem segments_with_repeats_spec (genome : List Char)
    (annotations : List AnnotationRow) (segment_length overlap : Nat) :
    (specCandidateWindows genome.length segment_length overlap).length =
      genome.length / (segment_length - overlap) ∧
    (∀ seg ∈ get_segments_with_repeats genome annotations segment_length overlap,
      seg.repeats ≠ [] ∧
      ∃ w ∈ specCandidateWindows genome.length segment_length overlap,
        seg.start = w.1 ∧
        seg.repeats =
          cropRepeats w.1 w.2 (get_the_corresponding_repeat annotations w.1 w.2) ∧
        get_the_corresponding_repeat annotations w.1 w.2 ≠ []) ∧
    (get_segments_with_repeats genome annotations segment_length overlap).length ≤
      genome.length / (segment_length - overlap) := by
  refine ⟨?_, ?_, ?_⟩
  · simp [specCandidateWindows]
  · intro seg hseg
    rw [get_segments_with_repeats, List.mem_filterMap] at hseg
    obtain ⟨index, hindex, hsome⟩ := hseg
    rw [List.mem_range] at hindex
    dsimp only at hsome
    split at hsome
    next hempty => exact absurd hsome (by simp)
    next hempty =>
      rw [Option.some_inj] at hsome
      have hne : get_the_corresponding_repeat annotations
          ((index * (segment_length - overlap) : Nat) : Int)
          (((index * (segment_length - overlap) : Nat) : Int) + (segment_length : Int)) ≠
            [] := by
        intro hnil
        exact hempty (by rw [hnil]; rfl)
      subst hsome
      refine ⟨?_, ?_⟩
      · simp only [cropRepeats]
        intro hmapnil
        exact hne (List.map_eq_nil_iff.mp hmapnil)
      · refine ⟨(((index * (segment_length - overlap) : Nat) : Int),
          ((index * (segment_length - overlap) : Nat) : Int) + (segment_length : Int)),
          ?_, rfl, rfl, hne⟩
        rw [specCandidateWindows, List.mem_map]
        exact ⟨index, List.mem_range.mpr hindex, rfl⟩
  · calc (get_segments_with_repeats genome annotations segment_length overlap).length
        ≤ (List.range (genome.length / (segment_length - overlap))).length :=
          List.length_filterMap_le _ _
    _ = genome.length / (segment_length - overlap) := List.length_range _

/-- Witness for C5: the membership part of the theorem applied to a
chromosome of length 10000 with `segment_length` 2000 and `overlap` 500
(stride 1500), together with its window count 10000 / 1500 = 6. -/
theorem segments_with_repeats_spec_witness :
    (specCandidateWindows (List.replicate 10000 'A').length 2000 500).length = 6 ∧
    ∀ seg ∈ get_segments_with_repeats (List.replicate 10000 'A')
        exampleAnnotations 2000 500, seg.repeats ≠ [] := by
  have h := segments_with_repeats_spec (List.replicate 10000 'A')
    exampleAnnotations 2000 500
  refine ⟨?_, fun seg hseg => (h.2.1 seg hseg).1⟩
  rw [h.1]
  norm_num

/-- C8 evaluation at the failing input: a well-formed hits row of type
"LTR/Copia" whose accession maps to classification "LTR/Gypsy" yields one
record with the chromosome of field 0 and the tuple-stringified subtype,
but its start and end fields hold the raw strings "100" and "200" from
fields 9 and 10 — not the integers 100 and 200 that the NamedTuple
declaration `start: int`, `end: int` promises. -/
theorem extract_lines_stores_strings :
    extract_lines
        [["chr1", "AC1", "LTR/Copia", "", "", "", "", "", "", "100", "200"]]
        [("AC1", "LTR/Gypsy")] =
      .ok [{ chromosome := PyScalar.str ("chr1")
             subtype := PyScalar.str ("(\x27LTR/Gypsy\x27,)")
             start := PyScalar.str ("100")
             «end» := PyScalar.str ("200") }] ∧
    PyScalar.str ("100") ≠ PyScalar.int 100 ∧
    extract_lines [["chr1", "AC2", "DNA", "", "", "", "", "", "", "5", "6"]] [] =
      .ok [] := by
  exact ⟨rfl, by decide, rfl⟩

/-- C10: `save_annotations` leaves the prior file content unchanged as a
prefix and appends exactly one tab-separated line per record in record
order, carrying (chromosome, start, end, subtype); for fields that need no
csv quoting each appended line is the plain tab-joined fields followed by
a single newline character and contains no other line break, so no blank
row is introduced; a further invocation only ever extends the content
further. -/
theorem save_annotations_appends (prior : String) (annotations : List Annotation_info)
    (hclean : ∀ d ∈ annotations, ∀ f ∈ annotationFields d, csvNeedsQuote f = false) :
    save_annotations prior annotations =
      prior ++ String.join (annotations.map (fun d =>
        String.intercalate ("\t") (annotationFields d) ++ "\n")) ∧
    (∀ d ∈ annotations,
      csvRow (annotationFields d) =
        String.intercalate ("\t") (annotationFields d) ++ "\n" ∧
      '\n' ∉ (String.intercalate ("\t") (annotationFields d)).toList) ∧
    (∃ appended, save_annotations prior annotations = prior ++ appended) ∧
    (∀ more, ∃ grown,
      save_annotations (save_annotations prior annotations) more =
        save_annotations prior annotations ++ grown) := by
  refine ⟨?_, ?_, ?_, ?_⟩
  · rw [save_annotations]
    congr 2
    exact List.map_congr_left (fun d hd => csvRow_of_clean _ (hclean d hd))
  · intro d hd
    refine ⟨csvRow_of_clean _ (hclean d hd), ?_⟩
    have hfield : ∀ f ∈ annotationFields d, '\n' ∉ f.toList := by
      intro f hf hmem
      have h := hclean d hd f hf
      rw [csvNeedsQuote, List.any_eq_false] at h
      exact h '\n' hmem (by decide)
    simp only [annotationFields] at hfield ⊢
    have htab : ('\n' : Char) ∉ ("\t" : String).toList := by decide
    intro hmem
    rw [show String.intercalate ("\t")
          [d.chromosome.toStr, d.start.toStr, d.«end».toStr, d.subtype.toStr] =
        d.chromosome.toStr ++ "\t" ++ d.start.toStr ++ "\t" ++ d.«end».toStr ++
          "\t" ++ d.subtype.toStr from rfl] at hmem
    simp only [String.toList, String.data_append, List.mem_append] at hmem
    rcases hmem with ((((((h | h) | h) | h) | h) | h) | h)
    · exact hfield _ (by simp) h
    · exact htab h
    · exact hfield _ (by simp) h
    · exact htab h
    · exact hfield _ (by simp) h
    · exact htab h
    · exact hfield _ (by simp) h
  · exact ⟨_, rfl⟩
  · intro more
    exact ⟨_, rfl⟩

/-- Witness for C10: one record appended to a nonempty prior file. -/
theorem save_annotations_appends_witness :
    save_annotations ("chr1\t1\t2\t(\x27LTR\x27,)\n")
        [{ chromosome := PyScalar.str ("chr1")
           subtype := PyScalar.str ("(\x27LTR/Gypsy\x27,)")
           start := PyScalar.str ("100")
           «end» := PyScalar.str ("200") }] =
      "chr1\t1\t2\t(\x27LTR\x27,)\n" ++ "chr1\t100\t200\t(\x27LTR/Gypsy\x27,)\n" := by
  have h := save_annotations_appends ("chr1\t1\t2\t(\x27LTR\x27,)\n")
    [{ chromosome := PyScalar.str ("chr1")
       subtype := PyScalar.str ("(\x27LTR/Gypsy\x27,)")
       start := PyScalar.str ("100")
       «end» := PyScalar.str ("200") }] (by decide)
  rw [h.1]
  decide

theorem resolveInInit_annotations_path :
    resolveInInit ("annotations_path") =
      .error ("NameError: name \x27annotations_path\x27 is not defined") := by
  rfl

/-- C4: for every argument combination, constructing the dataset fails
before completing — with the NameError on the unbound name
`annotations_path` whenever the chromosome list is nonempty (the name is
neither a parameter nor imported), and with the ValueError of
`pd.concat([])` in the degenerate empty-chromosome-list case — and
consequently `build_dataloader` always fails too, for every
configuration. -/
theorem repeatSequenceDataset_init_fails (args : InitArgs)
    (configuration : Configuration) :
    (∃ e, repeatSequenceDataset_init args = .error e) ∧
    (args.chromosomes ≠ [] →
      repeatSequenceDataset_init args =
        .error ("NameError: name \x27annotations_path\x27 is not defined")) ∧
    (∃ e, build_dataloader configuration = .error e) := by
  have hlist : ∀ chromosomes : List String, chromosomes ≠ [] →
      initAnnotationList chromosomes =
        .error ("NameError: name \x27annotations_path\x27 is not defined") := by
    intro chromosomes hne
    cases chromosomes with
    | nil => exact absurd rfl hne
    | cons c rest =>
      rw [initAnnotationList, resolveInInit_annotations_path]
  have hinit : ∀ a : InitArgs, ∃ e, repeatSequenceDataset_init a = .error e := by
    intro a
    cases hc : a.chromosomes with
    | nil =>
      refine ⟨("ValueError: No objects to concatenate"), ?_⟩
      rw [repeatSequenceDataset_init, hc]
      rfl
    | cons c rest =>
      refine ⟨("NameError: name \x27annotations_path\x27 is not defined"), ?_⟩
      rw [repeatSequenceDataset_init, hc, hlist (c :: rest) (by simp)]
  refine ⟨hinit args, ?_, ?_⟩
  · intro hne
    obtain ⟨e, he⟩ := hinit args
    rw [repeatSequenceDataset_init, hlist args.chromosomes hne]
  · obtain ⟨e, he⟩ := hinit
      { genome_fasta_path := "./data/genome_assemblies/datasets"
        annotation_path := "./data/annotations"
        chromosomes := configuration.chromosomes }
    refine ⟨e, ?_⟩
    simp only [build_dataloader, bind, Except.bind, he]

/-- Witness for C4: the failure at a concrete argument combination and
configuration (one chromosome, the defaults of the repository). -/
theorem repeatSequenceDataset_init_fails_witness :
    repeatSequenceDataset_init
        { genome_fasta_path := "./data/genome_assemblies/datasets"
          annotation_path := "./data/annotations"
          chromosomes := ["chrX"] } =
      .error ("NameError: name \x27annotations_path\x27 is not defined") := by
  exact (repeatSequenceDataset_init_fails
    { genome_fasta_path := "./data/genome_assemblies/datasets"
      annotation_path := "./data/annotations"
      chromosomes := ["chrX"] }
    { chromosomes := ["chrX"], segment_length := 2000, overlap := 500 }).2.1
    (by simp)

theorem length_writeRange (t : List Nat) (s e v : Nat) :
    (writeRange t s e v).length = t.length := by
  simp [writeRange, List.length_mapIdx]

theorem getD_writeRange (t : List Nat) (s e v i : Nat) (h : i < t.length) :
    (writeRange t s e v).getD i 0 = if s ≤ i ∧ i < e then v else t.getD i 0 := by
  have h2 : i < (writeRange t s e v).length := by rw [length_writeRange]; exact h
  rw [List.getD_eq_getElem _ _ h2, List.getD_eq_getElem _ _ h]
  simp [writeRange, List.mapIdx_eq_ofFn, List.getElem_ofFn, List.get_eq_getElem]

theorem writeRepeats_length (nnl : Nat) (repeats : List RelativeRepeat)
    (sample : List Nat) :
    (repeats.foldl (fun t r =>
      writeRange t r.start r.«end» (r.classIndex + nnl)) sample).length =
      sample.length := by
  induction repeats generalizing sample with
  | nil => rfl
  | cons r rest ih => rw [List.foldl_cons, ih, length_writeRange]

theorem lastCovering_foldl_init (i : Nat) (rest : List RelativeRepeat)
    (acc : Option RelativeRepeat) :
    rest.foldl (fun acc r => if r.start ≤ i ∧ i < r.«end» then some r else acc) acc =
      match rest.foldl
          (fun acc r => if r.start ≤ i ∧ i < r.«end» then some r else acc) none with
      | some x => some x
      | none => acc := by
  induction rest generalizing acc with
  | nil => simp
  | cons r rest ih =>
    rw [List.foldl_cons, List.foldl_cons]
    by_cases hc : r.start ≤ i ∧ i < r.«end»
    · simp only [if_pos hc]
      rw [ih (some r)]
      cases rest.foldl
          (fun acc r => if r.start ≤ i ∧ i < r.«end» then some r else acc) none with
      | none => rfl
      | some x => rfl
    · simp only [if_neg hc]
      exact ih acc

theorem lastCovering_cons (r : RelativeRepeat) (rest : List RelativeRepeat) (i : Nat) :
    lastCovering (r :: rest) i =
      match lastCovering rest i with
      | some x => some x
      | none => if r.start ≤ i ∧ i < r.«end» then some r else none := by
  rw [lastCovering, lastCovering, List.foldl_cons]
  exact lastCovering_foldl_init i rest _

theorem writeRepeats_getD (nnl : Nat) (repeats : List RelativeRepeat)
    (sample : List Nat) (i : Nat) (h : i < sample.length) :
    (repeats.foldl (fun t r =>
        writeRange t r.start r.«end» (r.classIndex + nnl)) sample).getD i 0 =
      match lastCovering repeats i with
      | some r => r.classIndex + nnl
      | none => sample.getD i 0 := by
  induction repeats generalizing sample with
  | nil => rfl
  | cons r rest ih =>
    rw [List.foldl_cons, lastCovering_cons,
      ih (writeRange sample r.start r.«end» (r.classIndex + nnl))
        (by rw [length_writeRange]; exact h)]
    cases hlc : lastCovering rest i with
    | some x => rfl
    | none =>
      simp only
      rw [getD_writeRange _ _ _ _ _ h]
      by_cases hc : r.start ≤ i ∧ i < r.«end»
      · rw [if_pos hc, if_pos hc]
      · rw [if_neg hc, if_neg hc]

/-- C2: for coordinates reaching `seq2seq` as segment-relative integers,
the target token sequence has length `segment_length + 2`, starts with the
sos token `num_categories + num_nucleobase_letters`, ends with the eos
token one greater, and at every interior position `i` carries the class
token `class + num_nucleobase_letters` of the last repeat of the list
covering `i` (later spans overwrite earlier ones), or the unmodified
sample code when no repeat covers `i`. -/
theorem seq2seq_target_spec (num_nucleobase_letters num_categories : Nat)
    (sample : List Nat) (repeats : List RelativeRepeat) :
    (seq2seqTarget num_nucleobase_letters num_categories sample repeats).length =
      sample.length + 2 ∧
    (seq2seqTarget num_nucleobase_letters num_categories sample repeats).getD 0 0 =
      num_categories + num_nucleobase_letters ∧
    (seq2seqTarget num_nucleobase_letters num_categories sample repeats).getLast? =
      some (num_categories + num_nucleobase_letters + 1) ∧
    ∀ i, i < sample.length →
      (seq2seqTarget num_nucleobase_letters num_categories
          sample repeats).getD (i + 1) 0 =
        match lastCovering repeats i with
        | some r => r.classIndex + num_nucleobase_letters
        | none => sample.getD i 0 := by
  refine ⟨?_, ?_, ?_, ?_⟩
  · simp only [seq2seqTarget, List.length_append, List.length_singleton,
      writeRepeats_length]
    omega
  · rfl
  · rw [seq2seqTarget, List.getLast?_concat]
  · intro i hi
    rw [seq2seqTarget, List.singleton_append,
      List.getD_append _ _ _ (i + 1)
        (by rw [List.length_cons, writeRepeats_length]; omega),
      List.getD_cons_succ]
    exact writeRepeats_getD num_nucleobase_letters repeats sample i hi

/-- Witness for C2, the concrete instance of the claim:
`num_nucleobase_letters = 5`, `num_categories = 3`, a segment of length 10
with one repeat at relative positions `[2, 5)` of class index 1 — the
interior position 2 is overwritten with `1 + 5 = 6`, position 5 is left
unmodified, the length is 12 and the sequence is framed by sos 8 and
eos 9. -/
theorem seq2seq_target_spec_witness :
    (seq2seqTarget 5 3 [0, 1, 2, 3, 4, 0, 1, 2, 3, 4]
        [{ start := 2, «end» := 5, classIndex := 1 }]).length = 12 ∧
    (seq2seqTarget 5 3 [0, 1, 2, 3, 4, 0, 1, 2, 3, 4]
        [{ start := 2, «end» := 5, classIndex := 1 }]).getD 0 0 = 8 ∧
    (seq2seqTarget 5 3 [0, 1, 2, 3, 4, 0, 1, 2, 3, 4]
        [{ start := 2, «end» := 5, classIndex := 1 }]).getLast? = some 9 ∧
    (seq2seqTarget 5 3 [0, 1, 2, 3, 4, 0, 1, 2, 3, 4]
        [{ start := 2, «end» := 5, classIndex := 1 }]).getD 3 0 = 6 ∧
    (seq2seqTarget 5 3 [0, 1, 2, 3, 4, 0, 1, 2, 3, 4]
        [{ start := 2, «end» := 5, classIndex := 1 }]).getD 6 0 = 0 := by
  have h := seq2seq_target_spec 5 3 [0, 1, 2, 3, 4, 0, 1, 2, 3, 4]
    [{ start := 2, «end» := 5, classIndex := 1 }]
  refine ⟨h.1, h.2.1, h.2.2.1, ?_, ?_⟩
  · have h3 := h.2.2.2 2 (by decide)
    rw [h3]
    decide
  · have h5 := h.2.2.2 5 (by decide)
    rw [h5]
    decide

/-- C3: whenever the seeded shuffle permutes the index list
`range(dataset_size)` (the behaviour of `np.random.shuffle`), the split
assigns the first `validation_size` shuffled indices to validation, the
next `test_size` to test and the remainder to train: the three slices have
exactly those lengths, are pairwise disjoint, and together cover exactly
the indices `0 .. dataset_size - 1`; and the partition depends only on the
shuffled index list, so a rerun producing the same shuffled list yields an
identical partition. -/
theorem buildSplit_partition (shuffle : Nat → List Nat → List Nat)
    (seed n validation_size test_size : Nat)
    (hperm : (shuffle seed (List.range n)).Perm (List.range n))
    (hsize : validation_size + test_size ≤ n) :
    (buildSplit shuffle seed n validation_size test_size).1.length =
      validation_size ∧
    (buildSplit shuffle seed n validation_size test_size).2.1.length = test_size ∧
    (buildSplit shuffle seed n validation_size test_size).2.2.length =
      n - validation_size - test_size ∧
    (buildSplit shuffle seed n validation_size test_size).1.Disjoint
      (buildSplit shuffle seed n validation_size test_size).2.1 ∧
    (buildSplit shuffle seed n validation_size test_size).1.Disjoint
      (buildSplit shuffle seed n validation_size test_size).2.2 ∧
    (buildSplit shuffle seed n validation_size test_size).2.1.Disjoint
      (buildSplit shuffle seed n validation_size test_size).2.2 ∧
    (∀ i, (i ∈ (buildSplit shuffle seed n validation_size test_size).1 ∨
           i ∈ (buildSplit shuffle seed n validation_size test_size).2.1 ∨
           i ∈ (buildSplit shuffle seed n validation_size test_size).2.2) ↔ i < n) ∧
    (∀ shuffle2 seed2,
      shuffle2 seed2 (List.range n) = shuffle seed (List.range n) →
      buildSplit shuffle2 seed2 n validation_size test_size =
        buildSplit shuffle seed n validation_size test_size) := by
  have hlen : (shuffle seed (List.range n)).length = n := by
    rw [hperm.length_eq, List.length_range]
  have hnd : (shuffle seed (List.range n)).Nodup :=
    hperm.nodup_iff.mpr (List.nodup_range n)
  have htrain : (buildSplit shuffle seed n validation_size test_size).2.2 =
      (shuffle seed (List.range n)).drop (validation_size + test_size) := by
    rw [buildSplit]
    exact List.take_of_length_le (by rw [List.length_drop, hlen])
  have hdd : (shuffle seed (List.range n)).drop (validation_size + test_size) =
      ((shuffle seed (List.range n)).drop validation_size).drop test_size := by
    rw [List.drop_drop, Nat.add_comm]
  have hdecomp : (buildSplit shuffle seed n validation_size test_size).1 ++
      ((buildSplit shuffle seed n validation_size test_size).2.1 ++
        (buildSplit shuffle seed n validation_size test_size).2.2) =
      shuffle seed (List.range n) := by
    rw [htrain, hdd]
    simp only [buildSplit]
    rw [List.take_append_drop, List.take_append_drop]
  have hndall : ((buildSplit shuffle seed n validation_size test_size).1 ++
      ((buildSplit shuffle seed n validation_size test_size).2.1 ++
        (buildSplit shuffle seed n validation_size test_size).2.2)).Nodup := by
    rw [hdecomp]; exact hnd
  rw [List.nodup_append] at hndall
  obtain ⟨hnd1, hndall2, hdisj1⟩ := hndall
  rw [List.nodup_append] at hndall2
  obtain ⟨hnd2, hnd3, hdisj23⟩ := hndall2
  refine ⟨?_, ?_, ?_, ?_, ?_, ?_, ?_, ?_⟩
  · rw [buildSplit]
    simp only
    rw [List.length_take, hlen]
    omega
  · rw [buildSplit]
    simp only
    rw [List.length_take, List.length_drop, hlen]
    omega
  · rw [htrain, List.length_drop, hlen]
    omega
  · intro a ha hb
    exact hdisj1 ha (List.mem_append_left _ hb)
  · intro a ha hb
    exact hdisj1 ha (List.mem_append_right _ hb)
  · exact hdisj23
  · intro i
    rw [← List.mem_range (n := n), ← hperm.mem_iff, ← hdecomp]
    simp [List.mem_append]
  · intro shuffle2 seed2 heq
    rw [buildSplit, buildSplit, heq]

/-- Witness for C3, the concrete sizes of the claim: dataset size 1000,
validation size 100, test size 200 give 100 validation, 200 test and 700
train indices (the reversing shuffle is a permutation). -/
theorem buildSplit_partition_witness :
    (buildSplit (fun _ l => l.reverse) 0 1000 100 200).1.length = 100 ∧
    (buildSplit (fun _ l => l.reverse) 0 1000 100 200).2.1.length = 200 ∧
    (buildSplit (fun _ l => l.reverse) 0 1000 100 200).2.2.length = 700 := by
  have h := buildSplit_partition (fun _ l => l.reverse) 0 1000 100 200
    (List.reverse_perm _) (by omega)
  exact ⟨h.1, h.2.1, h.2.2.1⟩

theorem pyDictOfPairs_of_nodup_keys {κ ν : Type} [BEq κ] [LawfulBEq κ]
    (pairs : List (κ × ν)) (h : (pairs.map Prod.fst).Nodup) :
    pyDictOfPairs pairs = pairs := by
  suffices hgen : ∀ d : List (κ × ν), (∀ p ∈ pairs, ∀ q ∈ d, q.1 ≠ p.1) →
      pairs.foldl (fun d p => pyDictInsert d p.1 p.2) d = d ++ pairs by
    simpa using hgen [] (by simp)
  induction pairs with
  | nil => intro d _; simp
  | cons p rest ih =>
    intro d hdisj
    rw [List.map_cons, List.nodup_cons] at h
    rw [List.foldl_cons]
    have hins : pyDictInsert d p.1 p.2 = d ++ [(p.1, p.2)] := by
      rw [pyDictInsert, if_neg]
      simp only [List.any_eq_true, not_exists, not_and]
      intro q hq hbeq
      exact hdisj p (by simp) q hq (eq_of_beq hbeq)
    rw [hins, ih h.2]
    · simp
    · intro r hr q hq
      rw [List.mem_append] at hq
      rcases hq with hq | hq
      · exact hdisj r (by simp [hr]) q hq
      · rw [List.mem_singleton] at hq
        subst hq
        intro hcontra
        exact h.1 (hcontra ▸ List.mem_map_of_mem Prod.fst hr)
  
theorem pyDictGet_of_mem {κ ν : Type} [BEq κ] [LawfulBEq κ]
    (d : List (κ × ν)) (k : κ) (v : ν) (hnd : (d.map Prod.fst).Nodup)
    (hmem : (k, v) ∈ d) : pyDictGet d k = some v := by
  induction d with
  | nil => cases hmem
  | cons q rest ih =>
    rw [List.map_cons, List.nodup_cons] at hnd
    rw [List.mem_cons] at hmem
    by_cases hk : (fun p : κ × ν => p.1 == k) q = true
    · rw [pyDictGet, List.find?_cons_of_pos (p := fun p => p.1 == k) (a := q) rest hk]
      rcases hmem with hmem | hmem
      · rw [← hmem]
        rfl
      · exact absurd (eq_of_beq hk ▸ List.mem_map_of_mem Prod.fst hmem) hnd.1
    · rcases hmem with hmem | hmem
      · rw [← hmem] at hk
        simp at hk
      · rw [pyDictGet, List.find?_cons_of_neg (p := fun p => p.1 == k) (a := q) rest hk]
        exact ih hnd.2 hmem

/-- C6: for a list of distinct subtype labels, every label round-trips
through `label_to_index` then `index_to_label`, and the indices stored in
the label-to-index dict are exactly `0 .. n-1`, with no gaps or
repeats. -/
theorem categoryMapper_bijection (categories : List String)
    (h : categories.Nodup) :
    (∀ s ∈ categories, ∃ i,
      (CategoryMapper.build categories).label_to_index s = some i ∧
      (CategoryMapper.build categories).index_to_label i = some s) ∧
    (CategoryMapper.build categories).label_to_index_dict.map Prod.snd =
      List.range categories.length := by
  have hswapkeys : ((categories.enum.map (fun p => (p.2, p.1))).map Prod.fst) =
      categories := by
    rw [List.map_map]
    exact List.enum_map_snd categories
  have henumkeys : (categories.enum.map Prod.fst).Nodup := by
    rw [List.enum_map_fst]
    exact List.nodup_range _
  have hldict : (CategoryMapper.build categories).label_to_index_dict =
      categories.enum.map (fun p => (p.2, p.1)) := by
    simp only [CategoryMapper.build]
    exact pyDictOfPairs_of_nodup_keys _ (by rw [hswapkeys]; exact h)
  have hidict : (CategoryMapper.build categories).index_to_label_dict =
      categories.enum := by
    simp only [CategoryMapper.build]
    exact pyDictOfPairs_of_nodup_keys _ henumkeys
  constructor
  · intro s hs
    obtain ⟨⟨i, hi⟩, hget⟩ := List.mem_iff_get.mp hs
    have hgetElem : categories[i] = s := hget
    have henum : (i, s) ∈ categories.enum := by
      have hlen : i < categories.enum.length := by
        rw [List.enum_length]
        exact hi
      have hmem2 := List.getElem_mem (l := categories.enum) (n := i) hlen
      rwa [List.getElem_enum, hgetElem] at hmem2
    refine ⟨i, ?_, ?_⟩
    · rw [CategoryMapper.label_to_index, hldict]
      exact pyDictGet_of_mem _ s i (by rw [hswapkeys]; exact h)
        (List.mem_map_of_mem (fun p => (p.2, p.1)) henum)
    · rw [CategoryMapper.index_to_label, hidict]
      exact pyDictGet_of_mem _ i s henumkeys henum
  · rw [hldict, List.map_map]
    have : (Prod.snd ∘ fun p : Nat × String => (p.2, p.1)) = Prod.fst := rfl
    rw [this, List.enum_map_fst]

/-- Witness for C6: the two-label catalog; "LTR/Gypsy" round-trips and the
stored indices are exactly `[0, 1]`. -/
theorem categoryMapper_bijection_witness :
    (∃ i, (CategoryMapper.build ["LTR/Copia", "LTR/Gypsy"]).label_to_index
        ("LTR/Gypsy") = some i ∧
      (CategoryMapper.build ["LTR/Copia", "LTR/Gypsy"]).index_to_label i =
        some ("LTR/Gypsy")) ∧
    (CategoryMapper.build
        ["LTR/Copia", "LTR/Gypsy"]).label_to_index_dict.map Prod.snd =
      List.range 2 := by
  have h := categoryMapper_bijection ["LTR/Copia", "LTR/Gypsy"] (by decide)
  exact ⟨h.1 ("LTR/Gypsy") (by decide), h.2⟩

theorem processPage_ok_of_nodup (results : List FamilyRecord) :
    ∀ families : List (String × FamilyRecord),
    ((families.map Prod.fst) ++ results.map (fun f => f.accession)).Nodup →
    processPage families results =
      .ok (families ++ results.map (fun f => (f.accession, f))) := by
  induction results with
  | nil => intro families _; simp [processPage]
  | cons family rest ih =>
    intro families hnd
    have hnotin : family.accession ∉ families.map Prod.fst := by
      rw [List.nodup_append] at hnd
      intro hmem
      exact hnd.2.2 hmem (by simp)
    rw [processPage, if_neg]
    · have hstep := ih (families ++ [(family.accession, family)]) (by
        rw [List.map_append]
        have : (families.map Prod.fst ++ [(family.accession, family)].map Prod.fst) ++
            rest.map (fun f => f.accession) =
            families.map Prod.fst ++
              ((family :: rest).map (fun f => f.accession)) := by
          simp
        rw [this]
        exact hnd)
      rw [hstep]
      simp
    · simp only [List.any_eq_true, not_exists, not_and]
      intro q hq hbeq
      exact hnotin (eq_of_beq hbeq ▸ List.mem_map_of_mem Prod.fst hq)

theorem processPage_error_of_dup (results : List FamilyRecord) :
    ∀ families : List (String × FamilyRecord),
    (families.map Prod.fst).Nodup →
    ¬ ((families.map Prod.fst) ++ results.map (fun f => f.accession)).Nodup →
    ∃ a, processPage families results = .error ("duplicate accession ID " ++ a) := by
  induction results with
  | nil =>
    intro families hnd hdup
    exact absurd (by simpa using hnd) hdup
  | cons family rest ih =>
    intro families hnd hdup
    by_cases hin : families.any (fun p => p.1 == family.accession)
    · exact ⟨family.accession, by rw [processPage, if_pos hin]⟩
    · have hnotin : family.accession ∉ families.map Prod.fst := by
        simp only [List.any_eq_true, not_exists, not_and] at hin
        intro hmem
        obtain ⟨q, hq, hqeq⟩ := List.mem_map.mp hmem
        exact hin q hq (by rw [hqeq]; exact beq_self_eq_true _)
      have hnd2 : ((families ++ [(family.accession, family)]).map Prod.fst).Nodup := by
        rw [List.map_append, List.nodup_append]
        refine ⟨hnd, by simp, ?_⟩
        intro a ha hb
        simp only [List.map_cons, List.map_nil, List.mem_singleton] at hb
        subst hb
        exact hnotin ha
      have hdup2 : ¬ (((families ++ [(family.accession, family)]).map Prod.fst) ++
          rest.map (fun f => f.accession)).Nodup := by
        intro hok
        apply hdup
        rw [List.map_append] at hok
        simpa using hok
      obtain ⟨a, ha⟩ := ih (families ++ [(family.accession, family)]) hnd2 hdup2
      exact ⟨a, by rw [processPage, if_neg hin, ha]⟩

theorem downloadFamiliesLoop_error_of_dup (pages : List PageResponse) :
    ∀ (start : Nat) (stop : Option Nat) (families : List (String × FamilyRecord)),
    (families.map Prod.fst).Nodup →
    ¬ ((families.map Prod.fst) ++ consumedAccessions pages start stop).Nodup →
    ∃ a, downloadFamiliesLoop pages start stop families =
      .error ("duplicate accession ID " ++ a) := by
  induction pages with
  | nil =>
    intro start stop families hnd hdup
    exfalso
    apply hdup
    rw [consumedAccessions]
    by_cases hcond : stop.all (fun e => start < e) <;> simp [hcond, hnd]
  | cons page rest ih =>
    intro start stop families hnd hdup
    rw [consumedAccessions] at hdup
    by_cases hcond : stop.all (fun e => start < e)
    · rw [if_pos hcond] at hdup
      rw [downloadFamiliesLoop, if_pos hcond]
      by_cases hpage :
          ((families.map Prod.fst) ++ page.results.map (fun f => f.accession)).Nodup
      · rw [processPage_ok_of_nodup page.results families hpage]
        have hkeys : ((families ++ page.results.map (fun f => (f.accession, f))).map
            Prod.fst) =
            families.map Prod.fst ++ page.results.map (fun f => f.accession) := by
          rw [List.map_append, List.map_map]
          rfl
        have hdup2 : ¬ (((families ++
            page.results.map (fun f => (f.accession, f))).map Prod.fst) ++
            consumedAccessions rest (start + 1000) (some page.total_count)).Nodup := by
          rw [hkeys, List.append_assoc]
          exact hdup
        obtain ⟨a, ha⟩ := ih (start + 1000) (some page.total_count)
          (families ++ page.results.map (fun f => (f.accession, f)))
          (by rw [hkeys]; exact hpage) hdup2
        exact ⟨a, ha⟩
      · obtain ⟨a, ha⟩ := processPage_error_of_dup page.results families hnd hpage
        rw [ha]
        exact ⟨a, rfl⟩
    · rw [if_neg hcond] at hdup
      exact absurd (by simpa using hnd) hdup

/-- C7: whenever an accession repeats among the result entries the
pagination loop consumes (within one page or across pages),
`download_families` fails with the duplicate-accession assertion, and the
families output file — written only after the whole loop completes — keeps
its prior content unchanged. -/
theorem download_families_duplicate (pages : List PageResponse)
    (hdup : ¬ (consumedAccessions pages 1 none).Nodup) :
    (∃ a, download_families pages = .error ("duplicate accession ID " ++ a)) ∧
    ∀ prior, familiesFileAfter prior pages = prior := by
  have h := downloadFamiliesLoop_error_of_dup pages 1 none [] (by simp)
    (by simpa using hdup)
  refine ⟨h, ?_⟩
  intro prior
  obtain ⟨a, ha⟩ := h
  rw [familiesFileAfter, download_families] at *
  rw [ha]

/-- Witness for C7: a single page whose results list the same accession
twice makes the download fail and leaves the file content untouched. -/
theorem download_families_duplicate_witness :
    (¬ (consumedAccessions duplicatePages 1 none).Nodup) ∧
    (∃ a, download_families duplicatePages =
      .error ("duplicate accession ID " ++ a)) ∧
    familiesFileAfter ("old content") duplicatePages = "old content" := by
  have h := download_families_duplicate duplicatePages (by decide)
  exact ⟨by decide, h.1, h.2 ("old content")⟩

theorem getD_map_of_lt {α β : Type} (f : α → β) (l : List α) (n : Nat) (d : β)
    (e : α) (h : n < l.length) : (l.map f).getD n d = f (l.getD n e) := by
  rw [List.getD_eq_getElem _ _ (by simpa using h), List.getD_eq_getElem _ _ h,
    List.getElem_map]

theorem getD_mapIdx_of_lt {α β : Type} (f : Nat → α → β) (l : List α) (n : Nat)
    (d : β) (e : α) (h : n < l.length) :
    (l.mapIdx f).getD n d = f n (l.getD n e) := by
  have h1 : n < (l.mapIdx f).length := by simpa [List.length_mapIdx] using h
  rw [List.getD_eq_getElem _ _ h1, List.getD_eq_getElem _ _ h]
  exact List.get_mapIdx l f n h h1

theorem getD_ofFn_of_lt {α : Type} {n : Nat} (f : Fin n → α) (i : Nat) (d : α)
    (h : i < n) : (List.ofFn f).getD i d = f ⟨i, h⟩ := by
  rw [List.getD_eq_getElem _ _ (by simpa [List.length_ofFn] using h),
    List.getElem_ofFn]

theorem getD_zipWith_of_lt {α β γ : Type} (f : α → β → γ) (l : List α)
    (l2 : List β) (n : Nat) (d : γ) (e : α) (e2 : β) (h : n < l.length)
    (h2 : n < l2.length) :
    (List.zipWith f l l2).getD n d = f (l.getD n e) (l2.getD n e2) := by
  rw [List.getD_eq_getElem _ _
      (by rw [List.length_zipWith]; exact lt_min h h2),
    List.getD_eq_getElem _ _ h, List.getD_eq_getElem _ _ h2,
    List.getElem_zipWith]

theorem getD_replicate_of_lt {α : Type} (n m : Nat) (x d : α) (h : m < n) :
    (List.replicate n x).getD m d = x := by
  rw [List.getD_eq_getElem _ _ (by simpa using h), List.getElem_replicate]

theorem matEqOne_triu_ones_getD (sz a b : Nat) (ha : a < sz) (hb : b < sz) :
    ((matEqOne (torchTriu (torchOnes sz))).getD a []).getD b false =
      decide (a ≤ b) := by
  rw [matEqOne, getD_map_of_lt _ _ a [] []
    (by simpa [torchTriu, torchOnes, List.length_mapIdx] using ha)]
  rw [torchTriu, getD_mapIdx_of_lt _ _ a [] []
    (by simpa [torchOnes] using ha)]
  rw [torchOnes, getD_replicate_of_lt sz a (List.replicate sz 1) [] ha]
  rw [getD_map_of_lt _ _ b false 0 (by simpa [List.length_mapIdx] using hb)]
  rw [getD_mapIdx_of_lt _ _ b 0 0 (by simpa using hb)]
  rw [getD_replicate_of_lt sz b 1 0 hb]
  by_cases hba : b < a
  · rw [if_pos hba]
    have hnab : ¬ (a ≤ b) := by omega
    simp [hnab]
  · rw [if_neg hba]
    have hab : a ≤ b := by omega
    simp [hab]

theorem mask_bool_getD (sz i j : Nat) (hi : i < sz) (hj : j < sz) :
    ((matTransposeSq sz (matEqOne (torchTriu (torchOnes sz)))).getD i []).getD j
        false =
      decide (j ≤ i) := by
  rw [matTransposeSq, getD_ofFn_of_lt _ i [] hi, getD_ofFn_of_lt _ j false hj]
  exact matEqOne_triu_ones_getD sz j i hj hi

theorem mask_bool_length (sz : Nat) :
    (matTransposeSq sz (matEqOne (torchTriu (torchOnes sz)))).length = sz := by
  rw [matTransposeSq, List.length_ofFn]

theorem mask_bool_row_length (sz i : Nat) (hi : i < sz) :
    ((matTransposeSq sz (matEqOne (torchTriu (torchOnes sz)))).getD i []).length =
      sz := by
  rw [matTransposeSq, getD_ofFn_of_lt _ i [] hi, List.length_ofFn]

theorem maskedFill_length (m : List (List TorchFloat)) (cond : List (List Bool))
    (v : TorchFloat) :
    (maskedFill m cond v).length = min m.length cond.length := by
  rw [maskedFill, List.length_zipWith]

theorem maskedFill_getD (m : List (List TorchFloat)) (cond : List (List Bool))
    (v : TorchFloat) (i : Nat) (hm : i < m.length) (hc : i < cond.length) :
    (maskedFill m cond v).getD i [] =
      List.zipWith (fun x c => if c then v else x) (m.getD i []) (cond.getD i []) :=
  getD_zipWith_of_lt _ _ _ i [] [] [] hm hc

/-- C9: the causal mask is square of size `sz`, with value `0.0` at and
below the diagonal (column index at most row index) and negative infinity
strictly above it. -/
theorem generate_square_subsequent_mask_spec (sz : Nat) :
    (generate_square_subsequent_mask sz).length = sz ∧
    (∀ i, i < sz → ((generate_square_subsequent_mask sz).getD i []).length = sz) ∧
    (∀ i j, i < sz → j < sz →
      ((generate_square_subsequent_mask sz).getD i []).getD j (TorchFloat.num 0) =
        if j ≤ i then TorchFloat.num 0 else TorchFloat.negInf) := by
  have hmlen := mask_bool_length sz
  have hflen : ((matTransposeSq sz (matEqOne (torchTriu (torchOnes sz)))).map
      (fun row => row.map (fun b => TorchFloat.num (if b then 1 else 0)))).length =
      sz := by rw [List.length_map, hmlen]
  have hc1len : ((matTransposeSq sz (matEqOne (torchTriu (torchOnes sz)))).map
      (fun row => row.map (fun b => b == false))).length = sz := by
    rw [List.length_map, hmlen]
  have hc2len : ((matTransposeSq sz (matEqOne (torchTriu (torchOnes sz)))).map
      (fun row => row.map (fun b => b == true))).length = sz := by
    rw [List.length_map, hmlen]
  have hgen : generate_square_subsequent_mask sz =
      maskedFill
        (maskedFill
          ((matTransposeSq sz (matEqOne (torchTriu (torchOnes sz)))).map
            (fun row => row.map (fun b => TorchFloat.num (if b then 1 else 0))))
          ((matTransposeSq sz (matEqOne (torchTriu (torchOnes sz)))).map
            (fun row => row.map (fun b => b == false)))
          TorchFloat.negInf)
        ((matTransposeSq sz (matEqOne (torchTriu (torchOnes sz)))).map
          (fun row => row.map (fun b => b == true)))
        (TorchFloat.num 0) := rfl
  have ht1len : (maskedFill
      ((matTransposeSq sz (matEqOne (torchTriu (torchOnes sz)))).map
        (fun row => row.map (fun b => TorchFloat.num (if b then 1 else 0))))
      ((matTransposeSq sz (matEqOne (torchTriu (torchOnes sz)))).map
        (fun row => row.map (fun b => b == false)))
      TorchFloat.negInf).length = sz := by
    rw [maskedFill_length, hflen, hc1len, Nat.min_self]
  refine ⟨?_, ?_, ?_⟩
  · rw [hgen, maskedFill_length, ht1len, hc2len, Nat.min_self]
  · intro i hi
    rw [hgen, maskedFill_getD _ _ _ i (by rw [ht1len]; exact hi)
        (by rw [hc2len]; exact hi),
      List.length_zipWith,
      maskedFill_getD _ _ _ i (by rw [hflen]; exact hi) (by rw [hc1len]; exact hi),
      List.length_zipWith,
      getD_map_of_lt _ _ i [] [] (by rw [hmlen]; exact hi),
      getD_map_of_lt _ _ i [] [] (by rw [hmlen]; exact hi),
      getD_map_of_lt _ _ i [] [] (by rw [hmlen]; exact hi),
      List.length_map, List.length_map, List.length_map,
      mask_bool_row_length sz i hi]
    omega
  · intro i j hi hj
    have hrowm : ((matTransposeSq sz (matEqOne (torchTriu (torchOnes sz)))).getD
        i []).length = sz := mask_bool_row_length sz i hi
    rw [hgen, maskedFill_getD _ _ _ i (by rw [ht1len]; exact hi)
        (by rw [hc2len]; exact hi),
      maskedFill_getD _ _ _ i (by rw [hflen]; exact hi) (by rw [hc1len]; exact hi),
      getD_map_of_lt _ _ i [] [] (by rw [hmlen]; exact hi),
      getD_map_of_lt _ _ i [] [] (by rw [hmlen]; exact hi),
      getD_map_of_lt _ _ i [] [] (by rw [hmlen]; exact hi)]
    rw [getD_zipWith_of_lt _ _ _ j (TorchFloat.num 0) (TorchFloat.num 0) false
        (by rw [List.length_zipWith, List.length_map, List.length_map, hrowm]; omega)
        (by rw [List.length_map, hrowm]; exact hj),
      getD_zipWith_of_lt _ _ _ j (TorchFloat.num 0) (TorchFloat.num 0) false
        (by rw [List.length_map, hrowm]; exact hj)
        (by rw [List.length_map, hrowm]; exact hj),
      getD_map_of_lt _ _ j (TorchFloat.num 0) false (by rw [hrowm]; exact hj),
      getD_map_of_lt _ _ j false false (by rw [hrowm]; exact hj),
      getD_map_of_lt _ _ j false false (by rw [hrowm]; exact hj),
      mask_bool_getD sz i j hi hj]
    by_cases hji : j ≤ i
    · simp [hji]
    · simp [hji]

/-- Witness for C9: the 4 × 4 mask of the claim has 0.0 at the
on-or-below-diagonal entry (1, 1) and negative infinity at the
strictly-above-diagonal entry (1, 2), and is 4 rows of 4 entries. -/
theorem generate_square_subsequent_mask_spec_witness :
    (generate_square_subsequent_mask 4).length = 4 ∧
    ((generate_square_subsequent_mask 4).getD 1 []).length = 4 ∧
    ((generate_square_subsequent_mask 4).getD 1 []).getD 1 (TorchFloat.num 0) =
      TorchFloat.num 0 ∧
    ((generate_square_subsequent_mask 4).getD 1 []).getD 2 (TorchFloat.num 0) =
      TorchFloat.negInf := by
  have h := generate_square_subsequent_mask_spec 4
  refine ⟨h.1, h.2.1 1 (by omega), ?_, ?_⟩
  · rw [h.2.2 1 1 (by omega) (by omega)]
    rfl
  · rw [h.2.2 1 2 (by omega) (by omega)]
    rfl
